import Mathlib

/-!
Verification of the CUDA architecture selection script
`scripts/get_cmake_cuda_archs.py`.

The script is a single-pass pure pipeline (modulo one external process
invocation, the `nvcc -code-ls` probe, and command-line parsing).  We embed
the pipeline shallowly:

* architecture identifiers are `String`s, as in the source;
* the probe is modelled by its captured standard output (a `String`) or a
  probe-level failure message, i.e. `Except String String`;
* `die msg` (log and `sys.exit(1)`) is modelled by `Outcome.fatal msg`
  respectively `Except.error msg` at the level of individual functions;
* an uncaught Python exception (only possible in
  `filter_archs_with_min_arch`, where `re.match(r"(\d+)", arch)` can be
  `None` and `.group(1)` would raise `AttributeError`) is modelled by
  `Option.none` / `Outcome.crash`;
* Python `sorted(..., key=get_arch_sort_key)` is a stable sort with respect
  to the key order; we model it by `List.insertionSort` over the key order
  `ArchLE`, which is a stable structural-recursive sort;
* digits and letters are modelled as ASCII (`Char.isDigit`, `Char.isAlpha`),
  matching the `sm_<digits><letter>` contract of the toolchain output, and
  Python string comparison (by code point) is modelled by `charListLT` on
  `Char.toNat`.
-/

/-- Python `str.lower()` (per-character lowercasing; the strings compared
in the source are ASCII). -/
def py_lower (s : String) : String :=
  String.mk (s.data.map Char.toLower)

/-- Python `str.strip()`: remove leading and trailing whitespace. -/
def py_strip (s : String) : String :=
  String.mk (((s.data.dropWhile Char.isWhitespace).reverse.dropWhile
    Char.isWhitespace).reverse)

/-- Python truthiness of a string: `not s` is true exactly when `s` is
empty. -/
def py_is_empty (s : String) : Bool :=
  s.data.isEmpty

/-- Splitting a character list at every separator character (Python
`str.split(sep)` for a one-character separator, and the segment structure
underlying `re.split` on a character class). -/
def split_on_pred_aux (p : Char → Bool) : List Char → List Char → List String
  | [], acc => [String.mk acc.reverse]
  | c :: cs, acc =>
    if p c then String.mk acc.reverse :: split_on_pred_aux p cs []
    else split_on_pred_aux p cs (c :: acc)

/-- Python `s.split("\n")`. -/
def py_split_newlines (s : String) : List String :=
  split_on_pred_aux (fun c => c == '\n') s.data []

/-- Python `s.startswith("sm_")`. -/
def starts_with_sm (s : String) : Bool :=
  s.data.take 3 == ['s', 'm', '_']

/-- Python slicing `s[3:]` (by characters). -/
def py_drop3 (s : String) : String :=
  String.mk (s.data.drop 3)

/-- Python `sep.join(parts)`. -/
def py_intercalate (sep : String) : List String → String
  | [] => ""
  | [x] => x
  | x :: y :: xs => x ++ sep ++ py_intercalate sep (y :: xs)

/-- The longest run of decimal digits at the front of a string.  Embeds the
Python idiom `re.match(r"\d+", arch)` / `re.match(r"(\d+)", arch)`. -/
def leading_digits (s : String) : List Char :=
  s.data.takeWhile Char.isDigit

/-- Value of a list of decimal digit characters, most significant first.
Embeds Python `int(...)` applied to the matched digit run. -/
def digits_to_nat (cs : List Char) : Nat :=
  cs.foldl (fun n c => 10 * n + (c.toNat - 48)) 0

/-- Numeric prefix value of an architecture identifier (0 if no digits). -/
def arch_num (s : String) : Nat :=
  digits_to_nat (leading_digits s)

/-- `get_arch_sort_key` from the source: `(numeric_value, full_string)`,
with `(0, arch)` when the string has no leading digits. -/
def get_arch_sort_key (arch : String) : Nat × String :=
  if (leading_digits arch).isEmpty then (0, arch)
  else (digits_to_nat (leading_digits arch), arch)

/-- Strict lexicographic comparison of char lists by code point; embeds
Python string `<`. -/
def charListLT : List Char → List Char → Bool
  | _, [] => false
  | [], _ :: _ => true
  | a :: as, b :: bs =>
    if a.toNat < b.toNat then true
    else if b.toNat < a.toNat then false
    else charListLT as bs

/-- Non-strict order on architecture identifiers induced by
`get_arch_sort_key` under Python tuple comparison: numeric value first,
full string second.  This is the order used by every `sorted(...)` call in
the source. -/
def archLEb (a b : String) : Bool :=
  if (get_arch_sort_key a).1 < (get_arch_sort_key b).1 then true
  else if (get_arch_sort_key b).1 < (get_arch_sort_key a).1 then false
  else (get_arch_sort_key a).2 == (get_arch_sort_key b).2
    || charListLT (get_arch_sort_key a).2.data (get_arch_sort_key b).2.data

/-- Propositional form of `archLEb`, used as the sort relation. -/
def ArchLE (a b : String) : Prop := archLEb a b = true

instance : DecidableRel ArchLE := fun a b =>
  inferInstanceAs (Decidable (archLEb a b = true))

/-- The canonical sort of the source: Python
`sorted(archs, key=get_arch_sort_key)`. -/
def sort_archs (archs : List String) : List String :=
  List.insertionSort ArchLE archs

/-- The stripped lines of the probe output:
`result.stdout.strip().split("\n")`, each line then `line.strip()`-ped. -/
def nvcc_lines (stdout : String) : List String :=
  (py_split_newlines (py_strip stdout)).map py_strip

/-- The identifiers collected by the parsing loop of `get_nvcc_archs`:
every stripped line starting with `sm_`, with that prefix removed. -/
def parsed_arch_tokens (stdout : String) : List String :=
  ((nvcc_lines stdout).filter starts_with_sm).map py_drop3

/-- `get_nvcc_archs` from the source, with the subprocess replaced by its
captured standard output.  The tokens are accumulated into a Python `set`
(modelled by `List.dedup`) and returned sorted; the function dies when no
token was parsed. -/
def get_nvcc_archs (stdout : String) : Except String (List String) :=
  if (parsed_arch_tokens stdout).dedup.isEmpty then
    .error "Could not parse any architectures (sm_XX) from 'nvcc -code-ls' output."
  else
    .ok (sort_archs (parsed_arch_tokens stdout).dedup)

/-- `parse_requested_archs` from the source: split on runs of whitespace
and commas, dropping empty tokens. -/
def parse_requested_archs (req_str : String) : List String :=
  if py_is_empty req_str then []
  else
    (split_on_pred_aux (fun c => c.isWhitespace || c == ',')
      (py_strip req_str).data []).filter (fun s => !py_is_empty s)

/-- `filter_archs_with_min_arch` from the source.  `none` models the
`AttributeError` raised when some identifier has no leading digits while a
positive minimum is in force. -/
def filter_archs_with_min_arch (archs : List String) (min_arch : Option Int) :
    Option (List String) :=
  match min_arch with
  | none => some archs
  | some m =>
    if m ≤ 0 then some archs
    else if archs.all (fun a => !(leading_digits a).isEmpty) then
      some (archs.filter (fun a => decide ((m : Int) ≤ (arch_num a : Int))))
    else none

/-- The hardcoded iGPU denylist of `filter_archs_for_platform`. -/
def igpu_archs : List String := ["72", "87", "101", "101a"]

/-- `filter_archs_for_platform` from the source, with the ambient
`platform.machine()` string passed explicitly. -/
def filter_archs_for_platform (machine : String) (archs : List String) :
    List String :=
  if py_lower machine = "x86_64" ∨ py_lower machine = "amd64" then
    archs.filter (fun a => decide (a ∉ igpu_archs))
  else
    archs

/-- The regex `^\d+0$` of `filter_major_archs`: one or more digits followed
by a literal `0`, spanning the whole token. -/
def matches_major (s : String) : Bool :=
  !s.data.dropLast.isEmpty && s.data.dropLast.all Char.isDigit
    && (s.data.getLastD 'x' == '0')

/-- `filter_major_archs` from the source. -/
def filter_major_archs (archs : List String) : List String :=
  archs.filter matches_major

/-- How the source renders the optional `--min-arch` value inside
f-strings: Python `str(None)` is `"None"`. -/
def show_min_arch : Option Int → String
  | none => "None"
  | some i => toString i

/-- The guidance string of `validate_user_archs`:
`", ".join(platform_filtered_archs)`, replaced by `"<None>"` when that
joined string is empty. -/
def valid_archs_guidance (platform_filtered_archs : List String) : String :=
  let s := py_intercalate ", " platform_filtered_archs
  if py_is_empty s then "<None>" else s

/-- The per-token loop of `validate_user_archs`: each token is checked
against the supported set, then the minimum-filtered set, then the
platform-filtered set, dying on the first failing check. -/
def validate_loop (nvcc_supported_set min_filtered_set platform_filtered_set :
    List String) (g : String) (min_arch_value : Option Int) :
    List String → Except String (List String)
  | [] => .ok []
  | arch :: rest =>
    if arch ∈ nvcc_supported_set then
      if arch ∈ min_filtered_set then
        if arch ∈ platform_filtered_set then
          (validate_loop nvcc_supported_set min_filtered_set
            platform_filtered_set g min_arch_value rest).map (arch :: ·)
        else
          .error ("Requested architecture '" ++ arch ++
            "' corresponds to an iGPU not supported on this platform (x86_64). Valid architectures: "
            ++ g)
      else
        .error ("Requested architecture '" ++ arch ++
          "' does not meet minimum requirement (sm_" ++
          show_min_arch min_arch_value ++ "). Valid architectures: " ++ g)
    else
      .error ("Requested architecture '" ++ arch ++
        "' is not supported by this version of nvcc. Valid architectures: "
        ++ g)

/-- `validate_user_archs` from the source. -/
def validate_user_archs (user_archs nvcc_supported_archs min_filtered_archs
    platform_filtered_archs : List String) (min_arch_value : Option Int) :
    Except String (List String) :=
  if user_archs.isEmpty then
    .error "Requested architecture list is empty."
  else
    validate_loop nvcc_supported_archs min_filtered_archs
      platform_filtered_archs (valid_archs_guidance platform_filtered_archs)
      min_arch_value user_archs

/-- Whether `re.search(r"[a-zA-Z]$", arch)` matches: the last character is
an ASCII letter. -/
def has_trailing_letter (s : String) : Bool :=
  match s.data.getLast? with
  | some c => c.isAlpha
  | none => false

/-- The `ptx_target_base` selection loop of `generate_sass_ptx_arch_list`:
walk the sorted list from the end, stop at the first identifier without a
trailing letter; `""` when none is found (the initial value of the Python
variable). -/
def ptx_target_base (sorted_archs : List String) : String :=
  match sorted_archs.reverse.find? (fun a => !has_trailing_letter a) with
  | some b => b
  | none => ""

/-- The base identifier used for the single `-virtual` entry: the
`ptx_target_base` loop result, or — when that result is the empty string,
in particular when every identifier carries a trailing letter — the
highest (last sorted) identifier overall. -/
def virtual_base (target_archs : List String) : String :=
  if py_is_empty (ptx_target_base (sort_archs target_archs)) then
    (sort_archs target_archs).getLastD ""
  else
    ptx_target_base (sort_archs target_archs)

/-- `generate_sass_ptx_arch_list` from the source: one `-real` entry per
identifier in canonical order, then the single `-virtual` entry. -/
def generate_sass_ptx_arch_list (target_archs : List String) :
    Except String (List String) :=
  if target_archs.isEmpty then
    .error "Cannot generate SASS/PTX list from empty target architectures."
  else
    .ok (((sort_archs target_archs).map (fun a => a ++ "-real")) ++
      [virtual_base target_archs ++ "-virtual"])

/-- The request dispatch of `main` (lines 259-273): `all`, `all-major`, or
the explicit-list validation path.  `requested` is the original request
string; the mode comparison uses its lowercase form while the explicit
tokens are parsed from the original. -/
def dispatch_targets (requested : String) (min_arch : Option Int)
    (nvcc_supported_archs min_filtered_archs platform_filtered_archs :
      List String) : Except String (List String) :=
  if py_lower requested = "all" then
    .ok platform_filtered_archs
  else if py_lower requested = "all-major" then
    .ok (filter_major_archs platform_filtered_archs)
  else
    validate_user_archs (parse_requested_archs requested)
      nvcc_supported_archs min_filtered_archs platform_filtered_archs
      min_arch

/-- Result of one program run.  `ok s` is exit code 0 with `s` printed to
standard output (no trailing newline); `fatal msg` is `die(msg)`: the
message is logged to standard error and the process exits with code 1;
`crash` is an uncaught Python exception. -/
inductive Outcome where
  | ok (stdout : String)
  | fatal (msg : String)
  | crash
deriving DecidableEq, Repr

/-- The fatal message of `main` when the resolved target list is empty. -/
def empty_result_msg (requested : String) (min_arch : Option Int)
    (machine : String) : String :=
  "No valid CUDA architectures could be determined for request '" ++
    requested ++ "' with current filters (min_arch=" ++
    show_min_arch min_arch ++ ", platform=" ++ machine ++ ")."

/-- `main` from the source, after command-line parsing: the request string,
the optional `--min-arch` value, the ambient `platform.machine()` string,
and the probe modelled as either a probe-level failure message (nvcc not
found / nonzero exit) or the captured standard output. -/
def mainRun (requested : String) (min_arch : Option Int) (machine : String)
    (probe : Except String String) : Outcome :=
  if py_lower requested = "native" then .ok "native"
  else
    match probe with
    | .error msg => .fatal msg
    | .ok stdout =>
      match get_nvcc_archs stdout with
      | .error msg => .fatal msg
      | .ok nvcc_supported_archs =>
        match filter_archs_with_min_arch nvcc_supported_archs min_arch with
        | none => .crash
        | some min_filtered_archs =>
          let platform_filtered_archs :=
            filter_archs_for_platform machine min_filtered_archs
          match dispatch_targets requested min_arch nvcc_supported_archs
              min_filtered_archs platform_filtered_archs with
          | .error msg => .fatal msg
          | .ok target_archs =>
            if target_archs.isEmpty then
              .fatal (empty_result_msg requested min_arch machine)
            else
              match generate_sass_ptx_arch_list target_archs with
              | .error msg => .fatal msg
              | .ok final_archs_list =>
                .ok (py_intercalate ";" final_archs_list)

/-! ### Order-theoretic facts about the canonical sort key -/

theorem char_eq_of_toNat_eq {a b : Char} (h : a.toNat = b.toNat) : a = b := by
  apply Char.ext
  have h2 : a.val.toNat = b.val.toNat := h
  exact UInt32.toNat.inj h2

theorem charListLT_trans : ∀ (x y z : List Char),
    charListLT x y = true → charListLT y z = true → charListLT x z = true := by
  intro x
  induction x with
  | nil =>
    intro y z hxy hyz
    cases y with
    | nil => simp [charListLT] at hxy
    | cons b bs =>
      cases z with
      | nil => simp [charListLT] at hyz
      | cons c cs => simp [charListLT]
  | cons a as ih =>
    intro y z hxy hyz
    cases y with
    | nil => simp [charListLT] at hxy
    | cons b bs =>
      cases z with
      | nil => simp [charListLT] at hyz
      | cons c cs =>
        by_cases hab : a.toNat < b.toNat
        · by_cases hbc : b.toNat < c.toNat
          · have hac : a.toNat < c.toNat := by omega
            simp [charListLT, hac]
          · by_cases hcb : c.toNat < b.toNat
            · simp [charListLT, hbc, hcb] at hyz
            · have hac : a.toNat < c.toNat := by omega
              simp [charListLT, hac]
        · by_cases hba : b.toNat < a.toNat
          · simp [charListLT, hab, hba] at hxy
          · simp only [charListLT, if_neg hab, if_neg hba] at hxy
            by_cases hbc : b.toNat < c.toNat
            · have hac : a.toNat < c.toNat := by omega
              simp [charListLT, hac]
            · by_cases hcb : c.toNat < b.toNat
              · simp [charListLT, hbc, hcb] at hyz
              · simp only [charListLT, if_neg hbc, if_neg hcb] at hyz
                have hac : ¬ a.toNat < c.toNat := by omega
                have hca : ¬ c.toNat < a.toNat := by omega
                simp only [charListLT, if_neg hac, if_neg hca]
                exact ih bs cs hxy hyz

theorem charListLT_connex : ∀ (x y : List Char),
    charListLT x y = false → charListLT y x = false → x = y := by
  intro x
  induction x with
  | nil =>
    intro y hxy _
    cases y with
    | nil => rfl
    | cons b bs => simp [charListLT] at hxy
  | cons a as ih =>
    intro y hxy hyx
    cases y with
    | nil => simp [charListLT] at hyx
    | cons b bs =>
      by_cases hab : a.toNat < b.toNat
      · simp [charListLT, hab] at hxy
      · by_cases hba : b.toNat < a.toNat
        · simp [charListLT, hba] at hyx
        · simp only [charListLT, if_neg hab, if_neg hba] at hxy hyx
          have hchar : a = b := char_eq_of_toNat_eq (by omega)
          rw [hchar, ih bs hxy hyx]

theorem get_arch_sort_key_snd (a : String) : (get_arch_sort_key a).2 = a := by
  unfold get_arch_sort_key
  split <;> rfl

theorem get_arch_sort_key_fst (a : String) :
    (get_arch_sort_key a).1 = arch_num a := by
  unfold get_arch_sort_key arch_num
  by_cases h : (leading_digits a).isEmpty = true
  · rw [if_pos h]
    rw [List.isEmpty_iff] at h
    rw [h]
    rfl
  · rw [if_neg h]

theorem archLEb_eq (a b : String) :
    archLEb a b =
      (if arch_num a < arch_num b then true
       else if arch_num b < arch_num a then false
       else (a == b || charListLT a.data b.data)) := by
  unfold archLEb
  rw [get_arch_sort_key_fst, get_arch_sort_key_fst, get_arch_sort_key_snd,
    get_arch_sort_key_snd]

theorem archLEb_refl (a : String) : archLEb a a = true := by
  rw [archLEb_eq]
  simp

theorem archLEb_total (a b : String) : archLEb a b = true ∨ archLEb b a = true := by
  rw [archLEb_eq, archLEb_eq]
  rcases Nat.lt_trichotomy (arch_num a) (arch_num b) with h | h | h
  · left
    simp [h]
  · by_cases hlt : charListLT a.data b.data = true
    · left
      simp [h, hlt]
    · by_cases hgt : charListLT b.data a.data = true
      · right
        simp [h, hgt]
      · left
        have : a = b := String.ext (charListLT_connex _ _
          (Bool.eq_false_iff.mpr hlt) (Bool.eq_false_iff.mpr hgt))
        simp [h, this]
  · right
    simp [h]

theorem archLEb_trans (a b c : String) (h1 : archLEb a b = true)
    (h2 : archLEb b c = true) : archLEb a c = true := by
  rw [archLEb_eq] at h1 h2 ⊢
  by_cases hab : arch_num a < arch_num b
  · by_cases hbc : arch_num b < arch_num c
    · simp [show arch_num a < arch_num c by omega]
    · by_cases hcb : arch_num c < arch_num b
      · simp [hbc, hcb] at h2
      · simp [show arch_num a < arch_num c by omega]
  · by_cases hba : arch_num b < arch_num a
    · simp [hab, hba] at h1
    · by_cases hbc : arch_num b < arch_num c
      · simp [show arch_num a < arch_num c by omega]
      · by_cases hcb : arch_num c < arch_num b
        · simp [hbc, hcb] at h2
        · have hac : ¬ arch_num a < arch_num c := by omega
          have hca : ¬ arch_num c < arch_num a := by omega
          simp only [if_neg hab, if_neg hba, Bool.or_eq_true, beq_iff_eq] at h1
          simp only [if_neg hbc, if_neg hcb, Bool.or_eq_true, beq_iff_eq] at h2
          simp only [if_neg hac, if_neg hca, Bool.or_eq_true, beq_iff_eq]
          rcases h1 with h1 | h1
          · rcases h2 with h2 | h2
            · left
              rw [h1, h2]
            · right
              rw [h1]
              exact h2
          · rcases h2 with h2 | h2
            · right
              rw [← h2]
              exact h1
            · right
              exact charListLT_trans _ _ _ h1 h2

instance : IsTotal String ArchLE := ⟨archLEb_total⟩

instance : IsTrans String ArchLE := ⟨archLEb_trans⟩

instance : IsRefl String ArchLE := ⟨archLEb_refl⟩

theorem arch_num_le_of_archLE {a b : String} (h : ArchLE a b) :
    arch_num a ≤ arch_num b := by
  rw [ArchLE, archLEb_eq] at h
  by_cases hab : arch_num a < arch_num b
  · omega
  · by_cases hba : arch_num b < arch_num a
    · simp [hab, hba] at h
    · omega

/-! ### Facts about the canonical sort and the formatter helpers -/

theorem sort_archs_perm (l : List String) : (sort_archs l).Perm l :=
  List.perm_insertionSort ArchLE l

theorem mem_sort_archs {a : String} {l : List String} :
    a ∈ sort_archs l ↔ a ∈ l :=
  List.mem_insertionSort ArchLE

theorem sort_archs_sorted (l : List String) :
    List.Sorted ArchLE (sort_archs l) :=
  List.sorted_insertionSort ArchLE l

theorem sort_archs_eq_of_sorted {l : List String}
    (h : List.Sorted ArchLE l) : sort_archs l = l :=
  List.Sorted.insertionSort_eq h

theorem sort_archs_ne_nil {l : List String} (h : l ≠ []) :
    sort_archs l ≠ [] := by
  intro hs
  apply h
  have := (sort_archs_perm l).length_eq
  rw [hs] at this
  exact List.length_eq_zero.mp this.symm

/-- In a list that is decreasing with respect to `ArchLE`, the element
found by `find?` dominates every member satisfying the predicate. -/
theorem find?_max_of_pairwise (p : String → Bool) :
    ∀ (t : List String), t.Pairwise (fun x y => ArchLE y x) →
      ∀ b, t.find? p = some b → ∀ a ∈ t, p a = true → ArchLE a b := by
  intro t
  induction t with
  | nil =>
    intro _ b hf
    simp at hf
  | cons x xs ih =>
    intro hp b hf a ha hpa
    by_cases hpx : p x = true
    · rw [List.find?_cons_of_pos _ hpx] at hf
      injection hf with hf
      subst hf
      rcases List.mem_cons.mp ha with rfl | ha
      · exact archLEb_refl a
      · exact List.rel_of_pairwise_cons hp ha
    · rw [List.find?_cons_of_neg _ hpx] at hf
      rcases List.mem_cons.mp ha with rfl | ha
      · exact absurd hpa hpx
      · exact ih hp.of_cons b hf a ha hpa

/-- The last element of a sorted list dominates every member. -/
theorem getLast_max_of_sorted (s : List String)
    (hs : List.Sorted ArchLE s) (hne : s ≠ []) :
    ∀ a ∈ s, ArchLE a (s.getLastD "") := by
  intro a ha
  have hrev : s.reverse.Pairwise (fun x y => ArchLE y x) :=
    List.pairwise_reverse.mpr hs
  rcases hr : s.reverse with _ | ⟨hd, tl⟩
  · exact absurd (List.reverse_eq_nil_iff.mp hr) hne
  · have hlast : s.getLastD "" = hd := by
      rw [List.getLastD_eq_getLast?, ← List.head?_reverse, hr]
      rfl
    rw [hlast]
    have ha' : a ∈ hd :: tl := by
      rw [← hr, List.mem_reverse]
      exact ha
    rw [hr] at hrev
    rcases List.mem_cons.mp ha' with rfl | ha'
    · exact archLEb_refl a
    · exact List.rel_of_pairwise_cons hrev ha'

theorem getLastD_mem_of_ne_nil (s : List String) (hne : s ≠ []) :
    s.getLastD "" ∈ s := by
  rw [List.getLastD_eq_getLast?]
  rcases hq : s.getLast? with _ | x
  · exact absurd (List.getLast?_eq_none_iff.mp hq) hne
  · exact List.mem_of_mem_getLast? hq

/-- Key character-level fact behind the formatter lemmas: no string ending
in `-virtual` equals one ending in `-real`. -/
theorem append_virtual_ne_append_real (A B : List Char) :
    B ++ ('-' :: 'v' :: 'i' :: 'r' :: 't' :: 'u' :: 'a' :: 'l' :: []) ≠
      A ++ ('-' :: 'r' :: 'e' :: 'a' :: 'l' :: []) := by
  intro h
  have h2 : (B ++ ('-' :: 'v' :: 'i' :: [])) ++
      ('r' :: 't' :: 'u' :: 'a' :: 'l' :: []) =
      A ++ ('-' :: 'r' :: 'e' :: 'a' :: 'l' :: []) := by
    rw [List.append_assoc]
    exact h
  have h3 := (List.append_inj' h2 rfl).2
  exact absurd h3 (by decide)

theorem virtual_data_eq :
    ("-virtual" : String).data = '-' :: 'v' :: 'i' :: 'r' :: 't' :: 'u' :: 'a' :: 'l' :: [] := rfl

theorem real_data_eq :
    ("-real" : String).data = '-' :: 'r' :: 'e' :: 'a' :: 'l' :: [] := rfl

theorem real_ne_virtual (a b : String) : a ++ "-real" ≠ b ++ "-virtual" := by
  intro h
  have hd := congrArg String.data h
  rw [String.data_append, String.data_append, virtual_data_eq, real_data_eq] at hd
  exact append_virtual_ne_append_real a.data b.data hd.symm

theorem virtual_not_suffix_of_real (a : String) :
    ("-virtual" : String).data.isSuffixOf ((a ++ "-real") : String).data = false := by
  rw [Bool.eq_false_iff]
  intro h
  obtain ⟨t, ht⟩ := List.isSuffixOf_iff_suffix.mp h
  rw [String.data_append, virtual_data_eq, real_data_eq] at ht
  exact append_virtual_ne_append_real a.data t ht

theorem virtual_suffix_of_virtual (b : String) :
    ("-virtual" : String).data.isSuffixOf ((b ++ "-virtual") : String).data = true := by
  rw [List.isSuffixOf_iff_suffix, String.data_append]
  exact List.suffix_append b.data _

/-- Whether a formatted entry ends in `-virtual`. -/
def ends_with_virtual (s : String) : Bool :=
  ("-virtual" : String).data.isSuffixOf s.data

theorem ends_with_virtual_real (a : String) :
    ends_with_virtual (a ++ "-real") = false := by
  unfold ends_with_virtual
  exact virtual_not_suffix_of_real a

theorem ends_with_virtual_virtual (b : String) :
    ends_with_virtual (b ++ "-virtual") = true := by
  unfold ends_with_virtual
  exact virtual_suffix_of_virtual b

theorem append_real_injective {a b : String}
    (h : a ++ "-real" = b ++ "-real") : a = b := by
  have hd := congrArg String.data h
  rw [String.data_append, String.data_append] at hd
  exact String.ext (List.append_inj' hd rfl).1

/-! ### Characterization of the major-version regex -/

theorem matches_major_iff (s : String) :
    matches_major s = true ↔
      (2 ≤ s.length ∧ s.data.all Char.isDigit = true ∧
        s.data.getLastD ' ' = '0') := by
  have hlen : s.length = s.data.length := rfl
  rw [hlen]
  unfold matches_major
  rcases List.eq_nil_or_concat s.data with h | ⟨init, c, h⟩
  · rw [h]
    simp
  · rw [h]
    rw [List.concat_eq_append]
    rw [List.dropLast_concat, List.getLastD_concat, List.getLastD_concat]
    simp only [Bool.and_eq_true, Bool.not_eq_true',
      beq_iff_eq, List.all_append, List.length_append, List.all_cons,
      List.all_nil, Bool.and_true, List.length_cons, List.length_nil]
    constructor
    · rintro ⟨⟨hne, hdig⟩, hc⟩
      subst hc
      have hnil : init ≠ [] := by
        intro hi
        rw [hi] at hne
        simp at hne
      have hpos : 0 < init.length := List.length_pos.mpr hnil
      exact ⟨by omega, ⟨hdig, by decide⟩, rfl⟩
    · rintro ⟨hlen2, ⟨hdig, _⟩, hc⟩
      subst hc
      refine ⟨⟨?_, hdig⟩, rfl⟩
      rcases init with _ | ⟨x, xs⟩
      · simp at hlen2
      · rfl

/-! ### Claims -/

/-- C6: for a `native` request (case-insensitively), the program prints
exactly `native` and exits with code 0, whatever the probe would have
returned — the capability probe is never consulted. -/
theorem c6_native_short_circuit (requested : String) (min_arch : Option Int)
    (machine : String) (probe : Except String String)
    (h : py_lower requested = "native") :
    mainRun requested min_arch machine probe = Outcome.ok "native" := by
  unfold mainRun
  rw [if_pos h]

/-- Witness for C6: the request `NATIVE` with a failing probe, and the
request `native` with a successful probe, both print `native`. -/
theorem c6_witness :
    mainRun "NATIVE" none "x86_64" (Except.error "nvcc probe failed") =
      Outcome.ok "native"
    ∧ mainRun "native" (some 80) "aarch64" (Except.ok "") =
      Outcome.ok "native" :=
  ⟨c6_native_short_circuit "NATIVE" none "x86_64"
      (Except.error "nvcc probe failed") (by decide),
    c6_native_short_circuit "native" (some 80) "aarch64" (Except.ok "")
      (by decide)⟩

/-- C3: with Supported Set `{70,75,80,86,90,90a}`, `--min-arch 80`, a
desktop x86 platform and request `all`, the resolved target list is
`[80, 86, 90, 90a]` and the printed output is
`80-real;86-real;90-real;90a-real;90-virtual`. -/
theorem c3_scenario_all_min80 :
    get_nvcc_archs "sm_70\nsm_75\nsm_80\nsm_86\nsm_90\nsm_90a" =
      Except.ok ["70", "75", "80", "86", "90", "90a"]
    ∧ filter_archs_with_min_arch ["70", "75", "80", "86", "90", "90a"]
        (some 80) = some ["80", "86", "90", "90a"]
    ∧ filter_archs_for_platform "x86_64" ["80", "86", "90", "90a"] =
        ["80", "86", "90", "90a"]
    ∧ mainRun "all" (some 80) "x86_64"
        (Except.ok "sm_70\nsm_75\nsm_80\nsm_86\nsm_90\nsm_90a") =
      Outcome.ok "80-real;86-real;90-real;90a-real;90-virtual" :=
  ⟨rfl, rfl, rfl, rfl⟩

/-- C4: the platform filter removes exactly `72`, `87`, `101`, `101a` on
desktop x86-family platforms (`x86_64` / `amd64` machine strings, compared
lowercased), keeping every other identifier with its multiplicity and
order; on any other platform it is the identity. -/
theorem c4_platform_filter (machine : String) (archs : List String) :
    ((py_lower machine = "x86_64" ∨ py_lower machine = "amd64") →
      List.Sublist (filter_archs_for_platform machine archs) archs
      ∧ (∀ a, a ∈ filter_archs_for_platform machine archs ↔
          (a ∈ archs ∧ a ∉ (["72", "87", "101", "101a"] : List String)))
      ∧ (∀ a, a ∉ (["72", "87", "101", "101a"] : List String) →
          (filter_archs_for_platform machine archs).count a = archs.count a))
    ∧ (py_lower machine ≠ "x86_64" → py_lower machine ≠ "amd64" →
        filter_archs_for_platform machine archs = archs) := by
  constructor
  · intro h
    unfold filter_archs_for_platform
    rw [if_pos h]
    refine ⟨List.filter_sublist archs, ?_, ?_⟩
    · intro a
      simp [List.mem_filter, igpu_archs]
    · intro a ha
      apply List.count_filter
      exact decide_eq_true (by simpa [igpu_archs] using ha)
  · intro h1 h2
    unfold filter_archs_for_platform
    rw [if_neg]
    rintro (h | h)
    · exact h1 h
    · exact h2 h

/-- Witness for C4: on `x86_64`, `72` is removed and `86` kept; on
`riscv64` the filter is the identity. -/
theorem c4_witness :
    ("86" ∈ filter_archs_for_platform "x86_64" ["72", "86", "87"] ↔
      ("86" ∈ ["72", "86", "87"] ∧
        "86" ∉ (["72", "87", "101", "101a"] : List String)))
    ∧ ("72" ∈ filter_archs_for_platform "x86_64" ["72", "86", "87"] ↔
      ("72" ∈ ["72", "86", "87"] ∧
        "72" ∉ (["72", "87", "101", "101a"] : List String)))
    ∧ filter_archs_for_platform "riscv64" ["72", "86"] = ["72", "86"] :=
  ⟨((c4_platform_filter "x86_64" ["72", "86", "87"]).1 (Or.inl (by decide))).2.1 "86",
    ((c4_platform_filter "x86_64" ["72", "86", "87"]).1 (Or.inl (by decide))).2.1 "72",
    (c4_platform_filter "riscv64" ["72", "86"]).2 (by decide) (by decide)⟩

/-- C5 counterexample: the token `0` is entirely numeric and ends in a
literal `0`, yet the major-only filter drops it — the regex `^\d+0$`
demands at least one digit before the final `0`. -/
theorem c5_counterexample :
    filter_major_archs ["0"] = []
    ∧ ("0" : String).data.all Char.isDigit = true
    ∧ ("0" : String).data.getLastD ' ' = '0' :=
  ⟨rfl, rfl, rfl⟩

/-- C5 amended: the major-only filter keeps exactly the identifiers of
length at least two whose characters are all digits and whose last
character is `0`; its output is a sublist (subset, in order) of its
input. -/
theorem c5_major_filter (archs : List String) :
    List.Sublist (filter_major_archs archs) archs
    ∧ ∀ a, a ∈ filter_major_archs archs ↔
        (a ∈ archs ∧ 2 ≤ a.length ∧ a.data.all Char.isDigit = true ∧
          a.data.getLastD ' ' = '0') := by
  refine ⟨List.filter_sublist archs, fun a => ?_⟩
  unfold filter_major_archs
  rw [List.mem_filter, matches_major_iff]

/-- A well-formed architecture identifier per the data-model invariant:
a non-empty numeric prefix followed by at most one trailing (ASCII)
letter. -/
def wf_arch_id (s : String) : Bool :=
  !(leading_digits s).isEmpty &&
    (match s.data.dropWhile Char.isDigit with
     | [] => true
     | [c] => c.isAlpha
     | _ :: _ :: _ => false)

/-- C8 counterexample: the probe parser keeps any line starting with
`sm_` and yields the remainder verbatim, so the non-conforming line
`sm_zz` is not ignored — it yields the identifier `zz`, which has no
numeric prefix (and `sm_90ab` yields `90ab`, which carries two trailing
letters). -/
theorem c8_counterexample :
    get_nvcc_archs "sm_zz" = Except.ok ["zz"]
    ∧ leading_digits "zz" = []
    ∧ wf_arch_id "zz" = false
    ∧ get_nvcc_archs "sm_90ab" = Except.ok ["90ab"]
    ∧ wf_arch_id "90ab" = false :=
  ⟨rfl, rfl, rfl, rfl, rfl⟩

/-- C8 amended: identifiers come only from (stripped) probe-output lines
starting with `sm_`, verbatim after that prefix; consequently, whenever
every `sm_`-prefixed line carries a well-formed remainder (digits plus at
most one trailing letter), every identifier of the Supported Set has a
non-empty numeric prefix and at most one trailing letter. -/
theorem c8_prober_invariant (stdout : String)
    (h : ∀ line ∈ nvcc_lines stdout, starts_with_sm line = true →
      wf_arch_id (py_drop3 line) = true) :
    ∀ sup, get_nvcc_archs stdout = Except.ok sup →
      ∀ a ∈ sup, a ∈ parsed_arch_tokens stdout ∧ wf_arch_id a = true := by
  intro sup hok a ha
  unfold get_nvcc_archs at hok
  by_cases he : (parsed_arch_tokens stdout).dedup.isEmpty = true
  · rw [if_pos he] at hok
    exact absurd hok (by simp)
  · rw [if_neg he] at hok
    injection hok with hok
    subst hok
    have hmem : a ∈ parsed_arch_tokens stdout :=
      List.mem_dedup.mp (mem_sort_archs.mp ha)
    refine ⟨hmem, ?_⟩
    unfold parsed_arch_tokens at hmem
    obtain ⟨line, hline, rfl⟩ := List.mem_map.mp hmem
    have hline' := List.mem_filter.mp hline
    exact h line hline'.1 hline'.2

/-- Witness for C8: a probe output whose `sm_` lines are all well-formed
(the line `ignored` is dropped); the identifier `90` is produced from it
and is well-formed. -/
theorem c8_witness :
    "90" ∈ parsed_arch_tokens "sm_90\nsm_90a\nignored"
    ∧ wf_arch_id "90" = true :=
  c8_prober_invariant "sm_90\nsm_90a\nignored" (by decide)
    ["90", "90a"] rfl "90" (by decide)

/-- Decidable substring check (by character lists), used to state what the
validation error messages do and do not contain. -/
def contains_substr (pat s : String) : Bool :=
  s.data.tails.any (fun t => pat.data.isPrefixOf t)

/-- C2 counterexample: when the platform-filtered guidance is empty, the
marker appended to the validation error is the literal `<None>`, not a
literal `none available` marker. -/
theorem c2_counterexample :
    validate_user_archs ["x"] [] [] [] none =
      Except.error "Requested architecture 'x' is not supported by this version of nvcc. Valid architectures: <None>"
    ∧ contains_substr "none available"
        "Requested architecture 'x' is not supported by this version of nvcc. Valid architectures: <None>" = false
    ∧ contains_substr "<None>"
        "Requested architecture 'x' is not supported by this version of nvcc. Valid architectures: <None>" = true :=
  ⟨rfl, rfl, rfl⟩

theorem validate_loop_ok (sup minf platf : List String) (g : String)
    (m : Option Int) :
    ∀ l : List String, (∀ t ∈ l, t ∈ sup ∧ t ∈ minf ∧ t ∈ platf) →
      validate_loop sup minf platf g m l = Except.ok l := by
  intro l
  induction l with
  | nil => intro _; rfl
  | cons x xs ih =>
    intro h
    obtain ⟨h1, h2, h3⟩ := h x (List.mem_cons_self x xs)
    unfold validate_loop
    rw [if_pos h1, if_pos h2, if_pos h3,
      ih (fun t ht => h t (List.mem_cons_of_mem x ht))]
    rfl

theorem validate_loop_err (sup minf platf : List String) (g : String)
    (m : Option Int) :
    ∀ (l : List String) (a : String),
      l.find? (fun t => !(decide (t ∈ sup) && decide (t ∈ minf) &&
        decide (t ∈ platf))) = some a →
      validate_loop sup minf platf g m l = Except.error
        (if a ∈ sup then
          if a ∈ minf then
            "Requested architecture '" ++ a ++
              "' corresponds to an iGPU not supported on this platform (x86_64). Valid architectures: "
              ++ g
          else
            "Requested architecture '" ++ a ++
              "' does not meet minimum requirement (sm_" ++ show_min_arch m ++
              "). Valid architectures: " ++ g
        else
          "Requested architecture '" ++ a ++
            "' is not supported by this version of nvcc. Valid architectures: "
            ++ g) := by
  intro l
  induction l with
  | nil =>
    intro a hf
    simp at hf
  | cons x xs ih =>
    intro a hf
    by_cases hx : (!(decide (x ∈ sup) && decide (x ∈ minf) &&
        decide (x ∈ platf))) = true
    · rw [List.find?_cons_of_pos (p := fun t => !(decide (t ∈ sup) &&
        decide (t ∈ minf) && decide (t ∈ platf))) _ hx] at hf
      injection hf with hf
      subst hf
      unfold validate_loop
      by_cases h1 : x ∈ sup
      · by_cases h2 : x ∈ minf
        · have h3 : x ∉ platf := by
            intro h3
            simp [h1, h2, h3] at hx
          rw [if_pos h1, if_pos h2, if_neg h3, if_pos h1, if_pos h2]
        · rw [if_pos h1, if_neg h2, if_pos h1, if_neg h2]
      · rw [if_neg h1, if_neg h1]
    · rw [List.find?_cons_of_neg (p := fun t => !(decide (t ∈ sup) &&
        decide (t ∈ minf) && decide (t ∈ platf))) _ hx] at hf
      have hx' : (x ∈ sup ∧ x ∈ minf) ∧ x ∈ platf := by
        simpa using hx
      unfold validate_loop
      rw [if_pos hx'.1.1, if_pos hx'.1.2, if_pos hx'.2, ih a hf]
      rfl

/-- C2 amended: each explicit token is checked against the supported set,
then the minimum-filtered set, then the platform-filtered set, in that
order; the run fails on the first failing check of the first failing
token, with a distinct message per constraint; every such message ends
with the platform-filtered architectures joined by `, `, or the literal
marker `<None>` when that joined string is empty. -/
theorem c2_validation_layers (user sup minf platf : List String)
    (m : Option Int) (hne : user ≠ []) :
    ((∀ t ∈ user, t ∈ sup ∧ t ∈ minf ∧ t ∈ platf) →
      validate_user_archs user sup minf platf m = Except.ok user)
    ∧ (∀ a, user.find? (fun t => !(decide (t ∈ sup) && decide (t ∈ minf) &&
        decide (t ∈ platf))) = some a →
        validate_user_archs user sup minf platf m = Except.error
          (if a ∈ sup then
            if a ∈ minf then
              "Requested architecture '" ++ a ++
                "' corresponds to an iGPU not supported on this platform (x86_64). Valid architectures: "
                ++ valid_archs_guidance platf
            else
              "Requested architecture '" ++ a ++
                "' does not meet minimum requirement (sm_" ++
                show_min_arch m ++ "). Valid architectures: " ++
                valid_archs_guidance platf
          else
            "Requested architecture '" ++ a ++
              "' is not supported by this version of nvcc. Valid architectures: "
              ++ valid_archs_guidance platf))
    ∧ (py_is_empty (py_intercalate ", " platf) = true →
        valid_archs_guidance platf = "<None>")
    ∧ (py_is_empty (py_intercalate ", " platf) = false →
        valid_archs_guidance platf = py_intercalate ", " platf) := by
  have hne' : ¬ user.isEmpty = true := by
    simpa [List.isEmpty_iff] using hne
  refine ⟨?_, ?_, ?_, ?_⟩
  · intro h
    unfold validate_user_archs
    rw [if_neg hne']
    exact validate_loop_ok sup minf platf (valid_archs_guidance platf) m user h
  · intro a hf
    unfold validate_user_archs
    rw [if_neg hne']
    exact validate_loop_err sup minf platf (valid_archs_guidance platf) m
      user a hf
  · intro h
    simp [valid_archs_guidance, h]
  · intro h
    simp [valid_archs_guidance, h]

/-- Witness for C2 (amended): token `86` passes, token `72` fails only the
platform check and produces the iGPU message listing `86` as guidance; an
all-passing list validates verbatim. -/
theorem c2_witness :
    validate_user_archs ["86", "72"] ["72", "86"] ["72", "86"] ["86"] none =
      Except.error "Requested architecture '72' corresponds to an iGPU not supported on this platform (x86_64). Valid architectures: 86"
    ∧ validate_user_archs ["86"] ["72", "86"] ["72", "86"] ["86"] none =
      Except.ok ["86"] :=
  ⟨(c2_validation_layers ["86", "72"] ["72", "86"] ["72", "86"] ["86"] none
      (by decide)).2.1 "72" (by decide),
    (c2_validation_layers ["86"] ["72", "86"] ["72", "86"] ["86"] none
      (by decide)).1 (by decide)⟩

/-- C7: whenever dispatch resolves to an empty target list, the program
dies (exit code 1) with a message naming the original request token, the
minimum-version filter value, and the detected platform. -/
theorem c7_empty_result (requested : String) (min_arch : Option Int)
    (machine : String) (stdout : String) (sup minf : List String)
    (hreq : py_lower requested ≠ "native")
    (hget : get_nvcc_archs stdout = Except.ok sup)
    (hmin : filter_archs_with_min_arch sup min_arch = some minf)
    (hdisp : dispatch_targets requested min_arch sup minf
      (filter_archs_for_platform machine minf) = Except.ok []) :
    mainRun requested min_arch machine (Except.ok stdout) =
      Outcome.fatal
        ("No valid CUDA architectures could be determined for request '" ++
          requested ++ "' with current filters (min_arch=" ++
          show_min_arch min_arch ++ ", platform=" ++ machine ++ ").") := by
  simp [mainRun, hreq, hget, hmin, hdisp, empty_result_msg]

/-- Witness for C7: request `all` with `--min-arch 200` on `arm64` over a
toolchain supporting only `70` leaves nothing and dies with the message
naming all three facts. -/
theorem c7_witness :
    mainRun "all" (some 200) "arm64" (Except.ok "sm_70") =
      Outcome.fatal "No valid CUDA architectures could be determined for request 'all' with current filters (min_arch=200, platform=arm64)." :=
  c7_empty_result "all" (some 200) "arm64" "sm_70" ["70"] []
    (by decide) rfl rfl rfl

/-- C10: mode dispatch goes through the lowercased request (`native`,
`all`, `all-major` match case-insensitively), while explicit-list tokens
are parsed from the original, unlowered request string and validated
verbatim. -/
theorem c10_case_insensitive_dispatch (requested : String)
    (min_arch : Option Int) (machine : String) (probe : Except String String)
    (sup minf platf : List String) :
    (py_lower requested = "native" →
      mainRun requested min_arch machine probe = Outcome.ok "native")
    ∧ (py_lower requested = "all" →
      dispatch_targets requested min_arch sup minf platf = Except.ok platf)
    ∧ (py_lower requested = "all-major" →
      dispatch_targets requested min_arch sup minf platf =
        Except.ok (filter_major_archs platf))
    ∧ (py_lower requested ≠ "all" → py_lower requested ≠ "all-major" →
      dispatch_targets requested min_arch sup minf platf =
        validate_user_archs (parse_requested_archs requested) sup minf platf
          min_arch) := by
  refine ⟨?_, ?_, ?_, ?_⟩
  · intro h
    unfold mainRun
    rw [if_pos h]
  · intro h
    unfold dispatch_targets
    rw [if_pos h]
  · intro h
    unfold dispatch_targets
    rw [if_neg (by rw [h]; decide), if_pos h]
  · intro h1 h2
    unfold dispatch_targets
    rw [if_neg h1, if_neg h2]

/-- Witness for C10: `NaTiVe` short-circuits, `All` and `ALL-MAJOR`
dispatch as their modes, and `90A` is treated as an explicit list whose
token keeps its original case. -/
theorem c10_witness :
    mainRun "NaTiVe" none "x86_64" (Except.error "probe unused") =
      Outcome.ok "native"
    ∧ dispatch_targets "All" none ["70"] ["70"] ["70"] = Except.ok ["70"]
    ∧ dispatch_targets "ALL-MAJOR" none ["70"] ["70"] ["70"] =
      Except.ok (filter_major_archs ["70"])
    ∧ dispatch_targets "90A" none ["90A"] ["90A"] ["90A"] =
      validate_user_archs (parse_requested_archs "90A") ["90A"] ["90A"]
        ["90A"] none
    ∧ parse_requested_archs "90A" = ["90A"] :=
  ⟨(c10_case_insensitive_dispatch "NaTiVe" none "x86_64"
      (Except.error "probe unused") [] [] []).1 (by decide),
    (c10_case_insensitive_dispatch "All" none "" (Except.ok "") ["70"] ["70"]
      ["70"]).2.1 (by decide),
    (c10_case_insensitive_dispatch "ALL-MAJOR" none "" (Except.ok "") ["70"]
      ["70"] ["70"]).2.2.1 (by decide),
    (c10_case_insensitive_dispatch "90A" none "" (Except.ok "") ["90A"]
      ["90A"] ["90A"]).2.2.2 (by decide) (by decide),
    rfl⟩

theorem py_is_empty_false_of_ne {b : String} (hb : b ≠ "") :
    py_is_empty b = false := by
  cases hbd : b.data with
  | nil =>
    exact absurd (String.ext (by rw [hbd])) hb
  | cons c cs =>
    unfold py_is_empty
    rw [hbd]
    rfl

/-- C1: the single `-virtual` entry of the formatter is based on the
greatest identifier (canonical order, hence also numerically greatest)
among those without a trailing letter; when every identifier carries a
trailing letter, it is based on the greatest identifier overall, suffix
retained.  Identifiers are non-empty strings (data-model invariant). -/
theorem c1_virtual_selection (l : List String) (hne : l ≠ [])
    (hid : ∀ a ∈ l, a ≠ "") :
    generate_sass_ptx_arch_list l =
      Except.ok ((sort_archs l).map (fun a => a ++ "-real") ++
        [virtual_base l ++ "-virtual"])
    ∧ virtual_base l ∈ l
    ∧ ((∃ x ∈ l, has_trailing_letter x = false) →
        has_trailing_letter (virtual_base l) = false ∧
        ∀ a ∈ l, has_trailing_letter a = false →
          ArchLE a (virtual_base l) ∧ arch_num a ≤ arch_num (virtual_base l))
    ∧ ((∀ x ∈ l, has_trailing_letter x = true) →
        ∀ a ∈ l, ArchLE a (virtual_base l) ∧
          arch_num a ≤ arch_num (virtual_base l)) := by
  have hs := sort_archs_sorted l
  have hperm := sort_archs_perm l
  have hsne : sort_archs l ≠ [] := sort_archs_ne_nil hne
  have hrev : (sort_archs l).reverse.Pairwise (fun x y => ArchLE y x) :=
    List.pairwise_reverse.mpr hs
  have hgen : generate_sass_ptx_arch_list l =
      Except.ok ((sort_archs l).map (fun a => a ++ "-real") ++
        [virtual_base l ++ "-virtual"]) := by
    unfold generate_sass_ptx_arch_list
    rw [if_neg (by simpa [List.isEmpty_iff] using hne)]
  rcases hfind : (sort_archs l).reverse.find? (fun a => !has_trailing_letter a)
    with _ | b
  · have hbase : ptx_target_base (sort_archs l) = "" := by
      unfold ptx_target_base
      rw [hfind]
    have hvb : virtual_base l = (sort_archs l).getLastD "" := by
      simp [virtual_base, hbase, py_is_empty]
    have hmem : (sort_archs l).getLastD "" ∈ l :=
      hperm.mem_iff.mp (getLastD_mem_of_ne_nil _ hsne)
    have hmax : ∀ a ∈ l, ArchLE a ((sort_archs l).getLastD "") := by
      intro a ha
      exact getLast_max_of_sorted _ hs hsne a (hperm.mem_iff.mpr ha)
    have hallsuf : ∀ x ∈ l, has_trailing_letter x = true := by
      intro x hx
      have := List.find?_eq_none.mp hfind x
        (by rw [List.mem_reverse]; exact hperm.mem_iff.mpr hx)
      simpa using this
    refine ⟨hgen, by rw [hvb]; exact hmem, ?_, ?_⟩
    · rintro ⟨x, hxl, hxf⟩
      have := hallsuf x hxl
      rw [hxf] at this
      exact absurd this (by decide)
    · intro _ a ha
      rw [hvb]
      exact ⟨hmax a ha, arch_num_le_of_archLE (hmax a ha)⟩
  · have hbase : ptx_target_base (sort_archs l) = b := by
      unfold ptx_target_base
      rw [hfind]
    have hbmem : b ∈ l :=
      hperm.mem_iff.mp (List.mem_reverse.mp (List.mem_of_find?_eq_some hfind))
    have hbempty : py_is_empty b = false :=
      py_is_empty_false_of_ne (hid b hbmem)
    have hvb : virtual_base l = b := by
      simp [virtual_base, hbase, hbempty]
    have hbnl : has_trailing_letter b = false := by
      have := List.find?_some hfind
      simpa using this
    refine ⟨hgen, by rw [hvb]; exact hbmem, ?_, ?_⟩
    · intro _
      rw [hvb]
      refine ⟨hbnl, ?_⟩
      intro a ha hana
      have hale : ArchLE a b := by
        refine find?_max_of_pairwise _ _ hrev b hfind a ?_ (by simpa using hana)
        rw [List.mem_reverse]
        exact hperm.mem_iff.mpr ha
      exact ⟨hale, arch_num_le_of_archLE hale⟩
    · intro hall a ha
      have := hall b hbmem
      rw [hbnl] at this
      exact absurd this (by decide)

/-- Witness for C1: in `[90a, 80]` the unsuffixed `80` is chosen as the
virtual base; in `[90a, 80a]` every identifier is suffixed and the highest
overall, `90a`, is chosen with its suffix retained. -/
theorem c1_witness :
    generate_sass_ptx_arch_list ["90a", "80"] =
      Except.ok ["80-real", "90a-real", "80-virtual"]
    ∧ has_trailing_letter (virtual_base ["90a", "80"]) = false
    ∧ ArchLE "80" (virtual_base ["90a", "80"])
    ∧ generate_sass_ptx_arch_list ["90a", "80a"] =
      Except.ok ["80a-real", "90a-real", "90a-virtual"]
    ∧ ArchLE "80a" (virtual_base ["90a", "80a"]) :=
  ⟨(c1_virtual_selection ["90a", "80"] (by decide) (by decide)).1,
    ((c1_virtual_selection ["90a", "80"] (by decide) (by decide)).2.2.1
      ⟨"80", by decide, by decide⟩).1,
    (((c1_virtual_selection ["90a", "80"] (by decide) (by decide)).2.2.1
      ⟨"80", by decide, by decide⟩).2 "80" (by decide) (by decide)).1,
    (c1_virtual_selection ["90a", "80a"] (by decide) (by decide)).1,
    ((c1_virtual_selection ["90a", "80a"] (by decide) (by decide)).2.2.2
      (by decide) "80a" (by decide)).1⟩

/-- C9: on a non-empty, canonically sorted, duplicate-free input, the
formatter emits each input identifier exactly once as a `-real` entry, in
input (= sorted) order, followed by exactly one `-virtual` entry. -/
theorem c9_formatter_round_trip (l : List String) (hne : l ≠ [])
    (hsorted : List.Sorted ArchLE l) (hnodup : l.Nodup) :
    generate_sass_ptx_arch_list l =
      Except.ok (l.map (fun a => a ++ "-real") ++
        [virtual_base l ++ "-virtual"])
    ∧ (∀ a ∈ l,
        (l.map (fun a => a ++ "-real") ++
          [virtual_base l ++ "-virtual"]).count (a ++ "-real") = 1)
    ∧ (l.map (fun a => a ++ "-real") ++
        [virtual_base l ++ "-virtual"]).countP ends_with_virtual = 1 := by
  have hsort_eq : sort_archs l = l := sort_archs_eq_of_sorted hsorted
  refine ⟨?_, ?_, ?_⟩
  · unfold generate_sass_ptx_arch_list
    rw [if_neg (by simpa [List.isEmpty_iff] using hne), hsort_eq]
  · intro a ha
    rw [List.count_append]
    have hinj : Function.Injective (fun a : String => a ++ "-real") :=
      fun x y hxy => append_real_injective hxy
    have h1 : (l.map (fun a => a ++ "-real")).count (a ++ "-real") = 1 := by
      apply List.count_eq_one_of_mem
      · exact hnodup.map hinj
      · exact List.mem_map_of_mem _ ha
    have h2 : ([virtual_base l ++ "-virtual"] : List String).count
        (a ++ "-real") = 0 := by
      rw [List.count_eq_zero]
      intro hmem
      rw [List.mem_singleton] at hmem
      exact real_ne_virtual a (virtual_base l) hmem
    rw [h1, h2]
  · rw [List.countP_append]
    have h1 : (l.map (fun a => a ++ "-real")).countP ends_with_virtual = 0 := by
      rw [List.countP_eq_zero]
      intro s hs
      obtain ⟨x, _, rfl⟩ := List.mem_map.mp hs
      simp [ends_with_virtual_real]
    have h2 : ([virtual_base l ++ "-virtual"] : List String).countP
        ends_with_virtual = 1 := by
      simp [List.countP_cons, ends_with_virtual_virtual]
    rw [h1, h2]

/-- Witness for C9: the sorted, deduplicated list `[80, 86, 90, 90a]`
formats to four `-real` entries in order plus the single `90-virtual`
entry; `80-real` occurs exactly once and there is exactly one `-virtual`
entry. -/
theorem c9_witness :
    generate_sass_ptx_arch_list ["80", "86", "90", "90a"] =
      Except.ok ["80-real", "86-real", "90-real", "90a-real", "90-virtual"]
    ∧ (["80-real", "86-real", "90-real", "90a-real", "90-virtual"] :
        List String).count "80-real" = 1
    ∧ (["80-real", "86-real", "90-real", "90a-real", "90-virtual"] :
        List String).countP ends_with_virtual = 1 :=
  ⟨(c9_formatter_round_trip ["80", "86", "90", "90a"] (by decide) (by decide)
      (by decide)).1,
    (c9_formatter_round_trip ["80", "86", "90", "90a"] (by decide) (by decide)
      (by decide)).2.1 "80" (by decide),
    (c9_formatter_round_trip ["80", "86", "90", "90a"] (by decide) (by decide)
      (by decide)).2.2⟩
